import Mathlib

/-!
Verification of the meal-plan optimization core of the smart-dining
dashboard (`app.py`, function `run_optimization`): preference filtering,
LP model construction, solution extraction and derived metrics, embedded
shallowly as executable Lean definitions.
-/

set_option maxHeartbeats 1000000

namespace SmartDining

/-- A meal slot: each day has a Lunch and a Dinner (`meals = ["Lunch", "Dinner"]`). -/
inductive Slot where
  | Lunch
  | Dinner
deriving DecidableEq, Inhabited

/-- The two slots, in the order of the source's `meals` list. -/
def slots : List Slot := [Slot.Lunch, Slot.Dinner]

/-- One catalog row, with the columns `run_optimization` reads.  Binary
flag columns are kept as natural numbers (the CSV stores 0/1), since the
source compares them with `== 0` / `== 1`. -/
structure MealRecord where
  restaurant : String
  meal : String
  price : ℚ
  calories_kcal : ℚ
  protein_g : ℚ
  contains_gluten : ℕ
  contains_lactose : ℕ
  diabetic_friendly : ℕ
  vegan : ℕ
  vegetarian : ℕ
  pescatarian : ℕ
  kosher : ℕ
  halal : ℕ
  contains_nuts : ℕ
  contains_grains : ℕ
  contains_legumes : ℕ
  contains_bread : ℕ
  contains_dairy : ℕ
  keto_friendly : ℕ
  gaining_weight_diet : ℕ
  loose_weight_diet : ℕ
  gaining_muscle_diet : ℕ
  spicy : ℕ
  fried : ℕ
deriving DecidableEq, Inhabited

/-- The gender selector (`st.selectbox("Gender", ["male", "female", "other"])`). -/
inductive Gender where
  | male
  | female
  | other
deriving DecidableEq, Inhabited

/-- The preference dictionary assembled in step 2 of the UI and passed to
`run_optimization`. -/
structure Preferences where
  diabetic : Bool
  celiac : Bool
  lactose_intolerant : Bool
  nut_allergy : Bool
  vegan : Bool
  vegetarian : Bool
  pescatarian : Bool
  keto : Bool
  kosher : Bool
  halal : Bool
  gain_weight : Bool
  lose_weight : Bool
  gain_muscle : Bool
  avoid_grains : Bool
  avoid_legumes : Bool
  avoid_bread : Bool
  avoid_dairy : Bool
  avoid_spicy : Bool
  avoid_fried : Bool
  gender : Gender
  budget : ℚ
deriving DecidableEq, Inhabited

/-- One conditional filter statement
`if preferences[t]: filtered = filtered[filtered[col] == v]`:
when the toggle is on, keep only the rows satisfying the predicate;
otherwise leave the frame unchanged. -/
def condFilter (b : Bool) (p : MealRecord → Bool) (l : List MealRecord) : List MealRecord :=
  if b then l.filter p else l

/-- The filtering block of `run_optimization` (source lines 432-472):
the nineteen conditional filters applied in source order to a copy of the
input catalog. -/
def applyFilters (prefs : Preferences) (df : List MealRecord) : List MealRecord :=
  let filtered := df
  let filtered := condFilter prefs.diabetic (fun r => decide (r.diabetic_friendly = 1)) filtered
  let filtered := condFilter prefs.celiac (fun r => decide (r.contains_gluten = 0)) filtered
  let filtered := condFilter prefs.lactose_intolerant (fun r => decide (r.contains_lactose = 0)) filtered
  let filtered := condFilter prefs.nut_allergy (fun r => decide (r.contains_nuts = 0)) filtered
  let filtered := condFilter prefs.vegan (fun r => decide (r.vegan = 1)) filtered
  let filtered := condFilter prefs.vegetarian (fun r => decide (r.vegetarian = 1)) filtered
  let filtered := condFilter prefs.pescatarian (fun r => decide (r.pescatarian = 1)) filtered
  let filtered := condFilter prefs.keto (fun r => decide (r.keto_friendly = 1)) filtered
  let filtered := condFilter prefs.kosher (fun r => decide (r.kosher = 1)) filtered
  let filtered := condFilter prefs.halal (fun r => decide (r.halal = 1)) filtered
  let filtered := condFilter prefs.gain_weight (fun r => decide (r.gaining_weight_diet = 1)) filtered
  let filtered := condFilter prefs.lose_weight (fun r => decide (r.loose_weight_diet = 1)) filtered
  let filtered := condFilter prefs.gain_muscle (fun r => decide (r.gaining_muscle_diet = 1)) filtered
  let filtered := condFilter prefs.avoid_grains (fun r => decide (r.contains_grains = 0)) filtered
  let filtered := condFilter prefs.avoid_legumes (fun r => decide (r.contains_legumes = 0)) filtered
  let filtered := condFilter prefs.avoid_bread (fun r => decide (r.contains_bread = 0)) filtered
  let filtered := condFilter prefs.avoid_dairy (fun r => decide (r.contains_dairy = 0)) filtered
  let filtered := condFilter prefs.avoid_spicy (fun r => decide (r.spicy = 0)) filtered
  let filtered := condFilter prefs.avoid_fried (fun r => decide (r.fried = 0)) filtered
  filtered

/-- Spec-side row predicate: a row is eligible when it satisfies the
conjunction of the predicates of the active toggles; an unset toggle
imposes no restriction (`!toggle || flag-test`). -/
def rowEligible (prefs : Preferences) (r : MealRecord) : Bool :=
  (!prefs.diabetic || decide (r.diabetic_friendly = 1)) &&
  (!prefs.celiac || decide (r.contains_gluten = 0)) &&
  (!prefs.lactose_intolerant || decide (r.contains_lactose = 0)) &&
  (!prefs.nut_allergy || decide (r.contains_nuts = 0)) &&
  (!prefs.vegan || decide (r.vegan = 1)) &&
  (!prefs.vegetarian || decide (r.vegetarian = 1)) &&
  (!prefs.pescatarian || decide (r.pescatarian = 1)) &&
  (!prefs.keto || decide (r.keto_friendly = 1)) &&
  (!prefs.kosher || decide (r.kosher = 1)) &&
  (!prefs.halal || decide (r.halal = 1)) &&
  (!prefs.gain_weight || decide (r.gaining_weight_diet = 1)) &&
  (!prefs.lose_weight || decide (r.loose_weight_diet = 1)) &&
  (!prefs.gain_muscle || decide (r.gaining_muscle_diet = 1)) &&
  (!prefs.avoid_grains || decide (r.contains_grains = 0)) &&
  (!prefs.avoid_legumes || decide (r.contains_legumes = 0)) &&
  (!prefs.avoid_bread || decide (r.contains_bread = 0)) &&
  (!prefs.avoid_dairy || decide (r.contains_dairy = 0)) &&
  (!prefs.avoid_spicy || decide (r.spicy = 0)) &&
  (!prefs.avoid_fried || decide (r.fried = 0))

/-- The nineteen toggles viewed as data: the conditional row predicate of
each toggle (in source order), an unset toggle contributing the constant
`true` predicate. -/
def togglePreds (prefs : Preferences) : List (MealRecord → Bool) :=
  [fun r => !prefs.diabetic || decide (r.diabetic_friendly = 1),
   fun r => !prefs.celiac || decide (r.contains_gluten = 0),
   fun r => !prefs.lactose_intolerant || decide (r.contains_lactose = 0),
   fun r => !prefs.nut_allergy || decide (r.contains_nuts = 0),
   fun r => !prefs.vegan || decide (r.vegan = 1),
   fun r => !prefs.vegetarian || decide (r.vegetarian = 1),
   fun r => !prefs.pescatarian || decide (r.pescatarian = 1),
   fun r => !prefs.keto || decide (r.keto_friendly = 1),
   fun r => !prefs.kosher || decide (r.kosher = 1),
   fun r => !prefs.halal || decide (r.halal = 1),
   fun r => !prefs.gain_weight || decide (r.gaining_weight_diet = 1),
   fun r => !prefs.lose_weight || decide (r.loose_weight_diet = 1),
   fun r => !prefs.gain_muscle || decide (r.gaining_muscle_diet = 1),
   fun r => !prefs.avoid_grains || decide (r.contains_grains = 0),
   fun r => !prefs.avoid_legumes || decide (r.contains_legumes = 0),
   fun r => !prefs.avoid_bread || decide (r.contains_bread = 0),
   fun r => !prefs.avoid_dairy || decide (r.contains_dairy = 0),
   fun r => !prefs.avoid_spicy || decide (r.spicy = 0),
   fun r => !prefs.avoid_fried || decide (r.fried = 0)]

/-- Apply a list of row predicates as successive filters, left to right. -/
def applyPreds (ps : List (MealRecord → Bool)) (df : List MealRecord) : List MealRecord :=
  ps.foldl (fun l p => l.filter p) df

/-! ## The LP model (`run_optimization`, source lines 497-559)

The PuLP problem is embedded as data: a decision variable is a
(meal index, day index, slot) triple, a linear expression is a list of
(coefficient, variable) terms, and the problem carries the objective and
the named constraints in the order the source adds them. -/

/-- A decision-variable identifier `x[(i, d, m)]`. -/
abbrev VarId := ℕ × ℕ × Slot

/-- Constraint comparison sense (`<=` or `==`). -/
inductive Cmp where
  | le
  | eq
deriving DecidableEq

/-- One named linear constraint `terms (cmp) rhs`. -/
structure LinConstraint where
  cname : String
  terms : List (ℚ × VarId)
  cmp : Cmp
  rhs : ℚ
deriving DecidableEq

/-- The LP problem as data: variables, cost objective, constraint list. -/
structure LpModel where
  vars : List VarId
  objective : List (ℚ × VarId)
  constraints : List LinConstraint
deriving DecidableEq

/-- Printed name of a slot, as used in the source's constraint names. -/
def slotName : Slot → String
  | Slot.Lunch => "Lunch"
  | Slot.Dinner => "Dinner"

/-- Day names in source order (`day_names`). -/
def dayNames : List String :=
  ["Monday", "Tuesday", "Wednesday", "Thursday", "Friday", "Saturday", "Sunday"]

/-- Model of `pandas.Series.unique`: the distinct values in first-appearance order. -/
def uniqueFirst (l : List String) : List String :=
  l.foldl (fun acc a => if a ∈ acc then acc else acc ++ [a]) []

/-- Row `i` of the filtered frame (`filtered.loc[i]`; indices are in
range after `reset_index`, so the default is never read). -/
def rowAt (filtered : List MealRecord) (i : ℕ) : MealRecord :=
  filtered.getD i default

/-- The objective expression: `Σ price(i) · x[(i, d, m)]` over all
variables, in the source's loop order (meal, then day, then slot). -/
def objTerms (filtered : List MealRecord) : List (ℚ × VarId) :=
  (List.range filtered.length).flatMap (fun i =>
    (List.range 7).flatMap (fun d =>
      slots.map (fun m => ((rowAt filtered i).price, (i, d, m)))))

/-- C1 of the source: total cost at most the weekly budget. -/
def budgetC (filtered : List MealRecord) (prefs : Preferences) : LinConstraint :=
  { cname := "BudgetConstraint", terms := objTerms filtered, cmp := Cmp.le, rhs := prefs.budget }

/-- C2 of the source: exactly one meal for day `d`, slot `m`. -/
def oneMealC (n d : ℕ) (m : Slot) : LinConstraint :=
  { cname := "OneMeal_day" ++ toString d ++ "_" ++ slotName m,
    terms := (List.range n).map (fun i => ((1 : ℚ), (i, d, m))),
    cmp := Cmp.eq, rhs := 1 }

/-- The C2 family, in the source's loop order. -/
def oneMealCs (n : ℕ) : List LinConstraint :=
  (List.range 7).flatMap (fun d => slots.map (fun m => oneMealC n d m))

/-- C3 of the source: meal `i` is served at most once in the week. -/
def uniqueMealC (i : ℕ) : LinConstraint :=
  { cname := "UniqueMeal_" ++ toString i,
    terms := (List.range 7).flatMap (fun d => slots.map (fun m => ((1 : ℚ), (i, d, m)))),
    cmp := Cmp.le, rhs := 1 }

/-- The C3 family. -/
def uniqueMealCs (n : ℕ) : List LinConstraint :=
  (List.range n).map uniqueMealC

/-- C4 of the source: at most 5 meals per restaurant per week. -/
def restWeekC (filtered : List MealRecord) (r : String) : LinConstraint :=
  { cname := "MaxRestaurantWeek_" ++ r,
    terms := (List.range filtered.length).flatMap (fun i =>
      (List.range 7).flatMap (fun d =>
        slots.flatMap (fun m =>
          if (rowAt filtered i).restaurant = r then [((1 : ℚ), (i, d, m))] else []))),
    cmp := Cmp.le, rhs := 5 }

/-- The C4 family, over the distinct restaurants. -/
def restWeekCs (filtered : List MealRecord) : List LinConstraint :=
  (uniqueFirst (filtered.map (fun r => r.restaurant))).map (restWeekC filtered)

/-- C5 of the source: at most 1 meal per restaurant per day. -/
def restDayC (filtered : List MealRecord) (d : ℕ) (r : String) : LinConstraint :=
  { cname := "MaxRestaurantDay_" ++ toString d ++ "_" ++ r,
    terms := (List.range filtered.length).flatMap (fun i =>
      slots.flatMap (fun m =>
        if (rowAt filtered i).restaurant = r then [((1 : ℚ), (i, d, m))] else [])),
    cmp := Cmp.le, rhs := 1 }

/-- The C5 family, day outer, restaurant inner, as in the source. -/
def restDayCs (filtered : List MealRecord) : List LinConstraint :=
  (List.range 7).flatMap (fun d =>
    (uniqueFirst (filtered.map (fun r => r.restaurant))).map (restDayC filtered d))

/-- C6 of the source: no meal with `contains_legumes == 1` at dinner of day `d`. -/
def noLegumesC (filtered : List MealRecord) (d : ℕ) : LinConstraint :=
  { cname := "NoLegumesDinner_" ++ toString d,
    terms := (List.range filtered.length).flatMap (fun i =>
      if (rowAt filtered i).contains_legumes = 1 then [((1 : ℚ), (i, d, Slot.Dinner))] else []),
    cmp := Cmp.eq, rhs := 0 }

/-- The C6 family. -/
def noLegumesCs (filtered : List MealRecord) : List LinConstraint :=
  (List.range 7).map (noLegumesC filtered)

/-- C7 of the source: no meal with `contains_grains == 1` at dinner of day `d`. -/
def noGrainsC (filtered : List MealRecord) (d : ℕ) : LinConstraint :=
  { cname := "NoGrainsDinner_" ++ toString d,
    terms := (List.range filtered.length).flatMap (fun i =>
      if (rowAt filtered i).contains_grains = 1 then [((1 : ℚ), (i, d, Slot.Dinner))] else []),
    cmp := Cmp.eq, rhs := 0 }

/-- The C7 family. -/
def noGrainsCs (filtered : List MealRecord) : List LinConstraint :=
  (List.range 7).map (noGrainsC filtered)

/-- The nutrition targets computed from the gender selector
(source lines 486-495): `(cal_min, cal_max, protein_min)`. -/
def nutritionTargets (g : Gender) : ℚ × ℚ × ℚ :=
  match g with
  | Gender.male => (1100, 1600, 50)
  | Gender.female => (900, 1400, 45)
  | Gender.other => (1000, 1500, 45)

/-- The complete model built by `run_optimization` from the filtered
catalog: binary variables in loop order, the cost objective, and the
seven constraint families in the order the source adds them. -/
def buildModel (filtered : List MealRecord) (prefs : Preferences) : LpModel :=
  { vars :=
      (List.range filtered.length).flatMap (fun i =>
        (List.range 7).flatMap (fun d => slots.map (fun m => (i, d, m)))),
    objective := objTerms filtered,
    constraints :=
      budgetC filtered prefs :: (oneMealCs filtered.length ++
        uniqueMealCs filtered.length ++ restWeekCs filtered ++
        restDayCs filtered ++ noLegumesCs filtered ++ noGrainsCs filtered) }

/-! ## Solver interface and feasibility -/

/-- A 0/1 assignment of the decision variables, as the solver returns it. -/
abbrev Asg := ℕ → ℕ → Slot → Bool

/-- Value of a linear expression under an assignment. -/
def evalTerms (x : Asg) (terms : List (ℚ × VarId)) : ℚ :=
  (terms.map (fun t => if x t.2.1 t.2.2.1 t.2.2.2 then t.1 else 0)).sum

/-- Whether an assignment satisfies one constraint. -/
def constraintHolds (x : Asg) (c : LinConstraint) : Bool :=
  match c.cmp with
  | Cmp.le => decide (evalTerms x c.terms ≤ c.rhs)
  | Cmp.eq => decide (evalTerms x c.terms = c.rhs)

/-- Whether an assignment satisfies every constraint of a model. -/
def feasible (M : LpModel) (x : Asg) : Prop :=
  ∀ c ∈ M.constraints, constraintHolds x c = true

instance (M : LpModel) (x : Asg) : Decidable (feasible M x) :=
  List.decidableBAll _ _

/-! ## Solution extraction and metrics (source lines 568-596) -/

/-- The variables the solver set to 1, in the extraction loop's order:
day outer, slot middle, meal index inner. -/
def selectedTriples (n : ℕ) (x : Asg) : List VarId :=
  (List.range 7).flatMap (fun d =>
    slots.flatMap (fun m =>
      ((List.range n).filter (fun i => x i d m)).map (fun i => (i, d, m))))

/-- One row of the extracted plan. -/
structure PlanEntry where
  day : String
  meal_type : Slot
  restaurant : String
  dish : String
  price : ℚ
  calories : ℚ
  protein : ℚ
deriving DecidableEq, Inhabited

/-- The plan entry built from a selected variable (`plan.append({...})`). -/
def planEntryOf (filtered : List MealRecord) (t : VarId) : PlanEntry :=
  { day := dayNames.getD t.2.1 "",
    meal_type := t.2.2,
    restaurant := (rowAt filtered t.1).restaurant,
    dish := (rowAt filtered t.1).meal,
    price := (rowAt filtered t.1).price,
    calories := (rowAt filtered t.1).calories_kcal,
    protein := (rowAt filtered t.1).protein_g }

/-- The extracted weekly plan. -/
def extractPlan (filtered : List MealRecord) (x : Asg) : List PlanEntry :=
  (selectedTriples filtered.length x).map (planEntryOf filtered)

/-- Value of `groupby('day')[col].sum()` for one day value. -/
def groupSum (plan : List PlanEntry) (f : PlanEntry → ℚ) (day : String) : ℚ :=
  ((plan.filter (fun e => decide (e.day = day))).map f).sum

/-- The distinct day values occurring in the plan (the groupby keys). -/
def uniqueDays (plan : List PlanEntry) : List String :=
  uniqueFirst (plan.map (fun e => e.day))

/-- Model of `groupby('day')[col].sum().mean()`: mean of the per-day sums over the
days present in the plan. -/
def avgDaily (plan : List PlanEntry) (f : PlanEntry → ℚ) : ℚ :=
  ((uniqueDays plan).map (groupSum plan f)).sum / ((uniqueDays plan).length : ℚ)

/-- The result dictionary returned by `run_optimization`. -/
structure PlanResult where
  plan : List PlanEntry
  total_cost : ℚ
  budget_used : ℚ
  avg_calories : ℚ
  avg_protein : ℚ
deriving DecidableEq

/-- Metric computation over the extracted plan (source lines 584-596). -/
def extractResult (filtered : List MealRecord) (prefs : Preferences) (x : Asg) : PlanResult :=
  let plan := extractPlan filtered x
  let actual_cost := (plan.map (fun e => e.price)).sum
  { plan := plan,
    total_cost := actual_cost,
    budget_used := actual_cost / prefs.budget * 100,
    avg_calories := avgDaily plan (fun e => e.calories),
    avg_protein := avgDaily plan (fun e => e.protein) }

/-! ## The full pipeline -/

/-- The failure modes of `run_optimization`: the insufficient-inventory
exception (with the eligible count it reports) and the non-optimal solver
status exception. -/
inductive OptError where
  | insufficientInventory (count : ℕ)
  | notOptimal
deriving DecidableEq

/-- The body of `run_optimization` with the external CBC solver abstracted as an
oracle: `none` models any non-`Optimal` status.  The filter block runs
first, the `len(filtered) < 14` fast-fail next, and only then is the
model built and handed to the solver. -/
def run_optimization (df : List MealRecord) (prefs : Preferences)
    (solver : LpModel → Option Asg) : Except OptError PlanResult :=
  let filtered := applyFilters prefs df
  if filtered.length < 14 then
    Except.error (OptError.insufficientInventory filtered.length)
  else
    match solver (buildModel filtered prefs) with
    | none => Except.error OptError.notOptimal
    | some x => Except.ok (extractResult filtered prefs x)

/-! ## The filtering block as statements over a mutable state

Source lines 429-478 are a sequence of Python statements over two frame
variables, the parameter `df` and the local `filtered`.  Each statement
is embedded as a state transformer; none of them rebinds `df` or mutates
it in place, which is what the embedding lets us prove. -/

/-- The two data-frame variables in scope in `run_optimization`'s
filtering section. -/
structure FilterState where
  df : List MealRecord
  filtered : List MealRecord
deriving DecidableEq

/-- The statements of source lines 432-478, in order:
`filtered = df.copy()` (a value copy of the caller's frame), the nineteen
conditional filter statements (each rebinding `filtered` only), and
`filtered = filtered.reset_index(drop=True)` (identity on the row list,
since this embedding indexes rows positionally). -/
def filterSteps (prefs : Preferences) : List (FilterState → FilterState) :=
  [fun s => { s with filtered := s.df },
   fun s => { s with filtered := condFilter prefs.diabetic (fun r => decide (r.diabetic_friendly = 1)) s.filtered },
   fun s => { s with filtered := condFilter prefs.celiac (fun r => decide (r.contains_gluten = 0)) s.filtered },
   fun s => { s with filtered := condFilter prefs.lactose_intolerant (fun r => decide (r.contains_lactose = 0)) s.filtered },
   fun s => { s with filtered := condFilter prefs.nut_allergy (fun r => decide (r.contains_nuts = 0)) s.filtered },
   fun s => { s with filtered := condFilter prefs.vegan (fun r => decide (r.vegan = 1)) s.filtered },
   fun s => { s with filtered := condFilter prefs.vegetarian (fun r => decide (r.vegetarian = 1)) s.filtered },
   fun s => { s with filtered := condFilter prefs.pescatarian (fun r => decide (r.pescatarian = 1)) s.filtered },
   fun s => { s with filtered := condFilter prefs.keto (fun r => decide (r.keto_friendly = 1)) s.filtered },
   fun s => { s with filtered := condFilter prefs.kosher (fun r => decide (r.kosher = 1)) s.filtered },
   fun s => { s with filtered := condFilter prefs.halal (fun r => decide (r.halal = 1)) s.filtered },
   fun s => { s with filtered := condFilter prefs.gain_weight (fun r => decide (r.gaining_weight_diet = 1)) s.filtered },
   fun s => { s with filtered := condFilter prefs.lose_weight (fun r => decide (r.loose_weight_diet = 1)) s.filtered },
   fun s => { s with filtered := condFilter prefs.gain_muscle (fun r => decide (r.gaining_muscle_diet = 1)) s.filtered },
   fun s => { s with filtered := condFilter prefs.avoid_grains (fun r => decide (r.contains_grains = 0)) s.filtered },
   fun s => { s with filtered := condFilter prefs.avoid_legumes (fun r => decide (r.contains_legumes = 0)) s.filtered },
   fun s => { s with filtered := condFilter prefs.avoid_bread (fun r => decide (r.contains_bread = 0)) s.filtered },
   fun s => { s with filtered := condFilter prefs.avoid_dairy (fun r => decide (r.contains_dairy = 0)) s.filtered },
   fun s => { s with filtered := condFilter prefs.avoid_spicy (fun r => decide (r.spicy = 0)) s.filtered },
   fun s => { s with filtered := condFilter prefs.avoid_fried (fun r => decide (r.fried = 0)) s.filtered },
   fun s => { s with filtered := s.filtered }]

/-- Run the filtering section's statements from the entry state, in which
`filtered` is not yet bound (modelled as the empty frame). -/
def runFilterPhase (prefs : Preferences) (df : List MealRecord) : FilterState :=
  (filterSteps prefs).foldl (fun s f => f s) { df := df, filtered := [] }

/-! ## Concrete data for witnesses -/

/-- The (day, slot) pairs of a week, day-major. -/
def slotPairs : List (ℕ × Slot) :=
  (List.range 7).flatMap (fun d => slots.map (fun m => (d, m)))

/-- Restaurants of the sample catalog. -/
def wRestaurants : List String := ["RestA", "RestB", "RestC", "RestD"]

/-- Sample catalog row `k`: cheap, flag-free, restaurant rotating mod 4. -/
def wMeal (k : ℕ) : MealRecord :=
  { restaurant := wRestaurants.getD (k % 4) "",
    meal := "Dish" ++ toString k,
    price := 5, calories_kcal := 600, protein_g := 30,
    contains_gluten := 0, contains_lactose := 0, diabetic_friendly := 0,
    vegan := 0, vegetarian := 0, pescatarian := 0, kosher := 0, halal := 0,
    contains_nuts := 0, contains_grains := 0, contains_legumes := 0,
    contains_bread := 0, contains_dairy := 0, keto_friendly := 0,
    gaining_weight_diet := 0, loose_weight_diet := 0, gaining_muscle_diet := 0,
    spicy := 0, fried := 0 }

/-- A sample catalog of 14 rows. -/
def wMeals : List MealRecord := (List.range 14).map wMeal

/-- A preference set with every toggle off and a $100 budget. -/
def wPrefs : Preferences :=
  { diabetic := false, celiac := false, lactose_intolerant := false,
    nut_allergy := false, vegan := false, vegetarian := false,
    pescatarian := false, keto := false, kosher := false, halal := false,
    gain_weight := false, lose_weight := false, gain_muscle := false,
    avoid_grains := false, avoid_legumes := false, avoid_bread := false,
    avoid_dairy := false, avoid_spicy := false, avoid_fried := false,
    gender := Gender.other, budget := 100 }

/-- A sample assignment: day `d` serves meal `2d` for lunch and meal
`2d + 1` for dinner. -/
def wAsg : Asg := fun i d m =>
  decide (i = 2 * d + (if m = Slot.Dinner then 1 else 0))

/-! # Theorems -/

/-- A `condFilter` step is a plain filter by the conditional predicate. -/
theorem condFilter_eq_filter (b : Bool) (p : MealRecord → Bool) (l : List MealRecord) :
    condFilter b p l = l.filter (fun r => !b || p r) := by
  cases b <;> simp [condFilter]

/-- The filtering block collapses to one pass with the conjunctive row
predicate. -/
theorem applyFilters_eq_filter (prefs : Preferences) (df : List MealRecord) :
    applyFilters prefs df = df.filter (rowEligible prefs) := by
  simp only [applyFilters, condFilter_eq_filter, List.filter_filter]
  apply List.filter_congr
  intro r _
  simp only [rowEligible]
  ac_rfl

/-- Successive filters commute. -/
theorem filter_comm (p q : MealRecord → Bool) (l : List MealRecord) :
    (l.filter p).filter q = (l.filter q).filter p := by
  simp only [List.filter_filter]
  exact List.filter_congr (fun a _ => Bool.and_comm _ _)

/-- Applying a permuted predicate list filters to the same list. -/
theorem applyPreds_perm {ps qs : List (MealRecord → Bool)} (h : ps.Perm qs)
    (df : List MealRecord) : applyPreds ps df = applyPreds qs df := by
  induction h generalizing df with
  | nil => rfl
  | cons p _ ih =>
      simp only [applyPreds, List.foldl_cons]
      exact ih _
  | swap p q l =>
      simp only [applyPreds, List.foldl_cons]
      rw [filter_comm]
  | trans _ _ ih₁ ih₂ => exact (ih₁ df).trans (ih₂ df)

/-- Folding the toggle predicates in source order is the source's
filtering block. -/
theorem applyPreds_togglePreds (prefs : Preferences) (df : List MealRecord) :
    applyPreds (togglePreds prefs) df = applyFilters prefs df := by
  rw [applyFilters_eq_filter]
  simp only [applyPreds, togglePreds, List.foldl_cons, List.foldl_nil, List.filter_filter]
  apply List.filter_congr
  intro r _
  simp only [rowEligible]
  ac_rfl

/-! ### Linear-expression evaluation lemmas -/

theorem evalTerms_nil (x : Asg) : evalTerms x [] = 0 := rfl

theorem evalTerms_cons (x : Asg) (t : ℚ × VarId) (ts : List (ℚ × VarId)) :
    evalTerms x (t :: ts) =
      (if x t.2.1 t.2.2.1 t.2.2.2 then t.1 else 0) + evalTerms x ts := by
  simp [evalTerms]

theorem evalTerms_append (x : Asg) (l₁ l₂ : List (ℚ × VarId)) :
    evalTerms x (l₁ ++ l₂) = evalTerms x l₁ + evalTerms x l₂ := by
  simp [evalTerms]

theorem evalTerms_flatMap {α : Type} (x : Asg) (l : List α) (f : α → List (ℚ × VarId)) :
    evalTerms x (l.flatMap f) = (l.map (fun a => evalTerms x (f a))).sum := by
  induction l with
  | nil => rfl
  | cons a l ih => simp [List.flatMap_cons, evalTerms_append, ih]

/-- Value of a unit-coefficient expression: the number of its variables
the assignment sets. -/
theorem evalTerms_unitMap (x : Asg) (ds : List VarId) :
    evalTerms x (ds.map (fun v => ((1 : ℚ), v))) =
      ((ds.filter (fun v => x v.1 v.2.1 v.2.2)).length : ℚ) := by
  induction ds with
  | nil => rfl
  | cons v ds ih =>
      by_cases hv : x v.1 v.2.1 v.2.2
      all_goals simp [evalTerms_cons, ih, hv, List.filter_cons]
      ring

/-- Value of a guarded unit-coefficient expression. -/
theorem evalTerms_guard (x : Asg) (ds : List VarId) (P : VarId → Prop) [DecidablePred P] :
    evalTerms x (ds.flatMap (fun v => if P v then [((1 : ℚ), v)] else [])) =
      ((ds.filter (fun v => decide (P v) && x v.1 v.2.1 v.2.2)).length : ℚ) := by
  induction ds with
  | nil => rfl
  | cons v ds ih =>
      by_cases hP : P v <;> by_cases hv : x v.1 v.2.1 v.2.2
      all_goals simp [List.flatMap_cons, evalTerms_append, evalTerms_cons, ih, hP, hv,
        List.filter_cons]
      ring

/-- Interchange of a double list sum. -/
theorem sum_map_comm {α β : Type} (l₁ : List α) (l₂ : List β) (g : α → β → ℚ) :
    (l₁.map (fun a => (l₂.map (g a)).sum)).sum =
      (l₂.map (fun b => (l₁.map (fun a => g a b)).sum)).sum := by
  induction l₁ with
  | nil =>
      simp
  | cons a l₁ ih =>
      simp only [List.map_cons, List.sum_cons, ih, List.sum_map_add]

/-- Summing a function over a filtered list equals summing its guarded
version over the whole list. -/
theorem sum_map_filter {α : Type} (l : List α) (p : α → Bool) (g : α → ℚ) :
    ((l.filter p).map g).sum = (l.map (fun a => if p a then g a else 0)).sum := by
  induction l with
  | nil => rfl
  | cons a l ih =>
      by_cases ha : p a
      all_goals simp [List.filter_cons, ha, ih]

theorem sum_map_flatMap {α β : Type} (l : List α) (f : α → List β) (g : β → ℚ) :
    ((l.flatMap f).map g).sum = (l.map (fun a => ((f a).map g).sum)).sum := by
  induction l with
  | nil => rfl
  | cons a l ih => simp [List.flatMap_cons, ih]

theorem evalTerms_constMap (x : Asg) (l : List Slot) (c : ℚ) (i d : ℕ) :
    evalTerms x (l.map (fun m => (c, (i, d, m)))) =
      (l.map (fun m => if x i d m then c else 0)).sum := by
  induction l with
  | nil => rfl
  | cons m l ih => simp [evalTerms_cons, ih]

/-! ### Characterizations of the constraint families -/

theorem constraintHolds_budgetC (x : Asg) (filtered : List MealRecord) (prefs : Preferences) :
    constraintHolds x (budgetC filtered prefs) = true ↔
      evalTerms x (objTerms filtered) ≤ prefs.budget := by
  simp [constraintHolds, budgetC]

theorem constraintHolds_oneMealC (x : Asg) (n d : ℕ) (m : Slot) :
    constraintHolds x (oneMealC n d m) = true ↔
      ((List.range n).filter (fun i => x i d m)).length = 1 := by
  have hshape : (List.range n).map (fun i => ((1 : ℚ), (i, d, m))) =
      ((List.range n).map (fun i => (i, d, m))).map (fun v => ((1 : ℚ), v)) := by
    rw [List.map_map]
    rfl
  simp only [constraintHolds, oneMealC, hshape, evalTerms_unitMap, List.filter_map,
    List.length_map, decide_eq_true_eq]
  rw [show (1 : ℚ) = ((1 : ℕ) : ℚ) by norm_num, Nat.cast_inj]
  rfl

theorem constraintHolds_uniqueMealC (x : Asg) (i : ℕ) :
    constraintHolds x (uniqueMealC i) = true ↔
      (slotPairs.filter (fun p => x i p.1 p.2)).length ≤ 1 := by
  have hshape : ((List.range 7).flatMap (fun d => slots.map (fun m => ((1 : ℚ), (i, d, m))))) =
      (slotPairs.map (fun p => (i, p.1, p.2))).map (fun v => ((1 : ℚ), v)) := by
    simp only [slotPairs, List.map_flatMap, List.map_map]
    rfl
  simp only [constraintHolds, uniqueMealC, hshape, evalTerms_unitMap, List.filter_map,
    List.length_map, decide_eq_true_eq]
  rw [show (1 : ℚ) = ((1 : ℕ) : ℚ) by norm_num, Nat.cast_le]
  rfl

theorem constraintHolds_restWeekC (x : Asg) (filtered : List MealRecord) (r : String) :
    constraintHolds x (restWeekC filtered r) = true ↔
      (((List.range filtered.length).flatMap (fun i =>
          (List.range 7).flatMap (fun d => slots.map (fun m => (i, d, m))))).filter
        (fun v => decide ((rowAt filtered v.1).restaurant = r) && x v.1 v.2.1 v.2.2)).length ≤ 5 := by
  have hshape : ((List.range filtered.length).flatMap (fun i =>
      (List.range 7).flatMap (fun d =>
        slots.flatMap (fun m =>
          if (rowAt filtered i).restaurant = r then [((1 : ℚ), (i, d, m))] else [])))) =
      ((List.range filtered.length).flatMap (fun i =>
        (List.range 7).flatMap (fun d => slots.map (fun m => (i, d, m))))).flatMap
        (fun v => if (rowAt filtered v.1).restaurant = r then [((1 : ℚ), v)] else []) := by
    simp [List.flatMap_assoc, List.flatMap_map]
  simp only [constraintHolds, restWeekC, hshape,
    evalTerms_guard x _ (fun v => (rowAt filtered v.1).restaurant = r), decide_eq_true_eq]
  rw [show (5 : ℚ) = ((5 : ℕ) : ℚ) by norm_num, Nat.cast_le]

theorem constraintHolds_restDayC (x : Asg) (filtered : List MealRecord) (d : ℕ) (r : String) :
    constraintHolds x (restDayC filtered d r) = true ↔
      (((List.range filtered.length).flatMap (fun i =>
          slots.map (fun m => (i, d, m)))).filter
        (fun v => decide ((rowAt filtered v.1).restaurant = r) && x v.1 v.2.1 v.2.2)).length ≤ 1 := by
  have hshape : ((List.range filtered.length).flatMap (fun i =>
      slots.flatMap (fun m =>
        if (rowAt filtered i).restaurant = r then [((1 : ℚ), (i, d, m))] else []))) =
      ((List.range filtered.length).flatMap (fun i =>
        slots.map (fun m => (i, d, m)))).flatMap
        (fun v => if (rowAt filtered v.1).restaurant = r then [((1 : ℚ), v)] else []) := by
    simp [List.flatMap_assoc, List.flatMap_map]
  simp only [constraintHolds, restDayC, hshape,
    evalTerms_guard x _ (fun v => (rowAt filtered v.1).restaurant = r), decide_eq_true_eq]
  rw [show (1 : ℚ) = ((1 : ℕ) : ℚ) by norm_num, Nat.cast_le]

theorem constraintHolds_noLegumesC (x : Asg) (filtered : List MealRecord) (d : ℕ) :
    constraintHolds x (noLegumesC filtered d) = true ↔
      ∀ i < filtered.length, (rowAt filtered i).contains_legumes = 1 →
        x i d Slot.Dinner = false := by
  have hshape : ((List.range filtered.length).flatMap (fun i =>
      if (rowAt filtered i).contains_legumes = 1 then [((1 : ℚ), (i, d, Slot.Dinner))] else [])) =
      ((List.range filtered.length).map (fun i => (i, d, Slot.Dinner))).flatMap
        (fun v => if (rowAt filtered v.1).contains_legumes = 1 then [((1 : ℚ), v)] else []) := by
    simp [List.flatMap_map]
  simp only [constraintHolds, noLegumesC, hshape,
    evalTerms_guard x _ (fun v => (rowAt filtered v.1).contains_legumes = 1), decide_eq_true_eq]
  rw [show (0 : ℚ) = ((0 : ℕ) : ℚ) by norm_num, Nat.cast_inj, List.length_eq_zero,
    List.filter_eq_nil_iff]
  constructor
  · intro h i hi hleg
    have := h (i, d, Slot.Dinner) (by simp [List.mem_map, List.mem_range]; exact hi)
    simpa [hleg] using this
  · intro h v hv
    simp only [List.mem_map, List.mem_range] at hv
    obtain ⟨i, hi, rfl⟩ := hv
    by_cases hleg : (rowAt filtered i).contains_legumes = 1
    · simp [hleg, h i hi hleg]
    · simp [hleg]

theorem constraintHolds_noGrainsC (x : Asg) (filtered : List MealRecord) (d : ℕ) :
    constraintHolds x (noGrainsC filtered d) = true ↔
      ∀ i < filtered.length, (rowAt filtered i).contains_grains = 1 →
        x i d Slot.Dinner = false := by
  have hshape : ((List.range filtered.length).flatMap (fun i =>
      if (rowAt filtered i).contains_grains = 1 then [((1 : ℚ), (i, d, Slot.Dinner))] else [])) =
      ((List.range filtered.length).map (fun i => (i, d, Slot.Dinner))).flatMap
        (fun v => if (rowAt filtered v.1).contains_grains = 1 then [((1 : ℚ), v)] else []) := by
    simp [List.flatMap_map]
  simp only [constraintHolds, noGrainsC, hshape,
    evalTerms_guard x _ (fun v => (rowAt filtered v.1).contains_grains = 1), decide_eq_true_eq]
  rw [show (0 : ℚ) = ((0 : ℕ) : ℚ) by norm_num, Nat.cast_inj, List.length_eq_zero,
    List.filter_eq_nil_iff]
  constructor
  · intro h i hi hg
    have := h (i, d, Slot.Dinner) (by simp [List.mem_map, List.mem_range]; exact hi)
    simpa [hg] using this
  · intro h v hv
    simp only [List.mem_map, List.mem_range] at hv
    obtain ⟨i, hi, rfl⟩ := hv
    by_cases hg : (rowAt filtered i).contains_grains = 1
    · simp [hg, h i hi hg]
    · simp [hg]

/-- An assignment is feasible for the built model exactly when it
satisfies each of the seven constraint families. -/
theorem feasible_iff (filtered : List MealRecord) (prefs : Preferences) (x : Asg) :
    feasible (buildModel filtered prefs) x ↔
      constraintHolds x (budgetC filtered prefs) = true ∧
      (∀ d < 7, ∀ m ∈ slots, constraintHolds x (oneMealC filtered.length d m) = true) ∧
      (∀ i < filtered.length, constraintHolds x (uniqueMealC i) = true) ∧
      (∀ r ∈ uniqueFirst (filtered.map (fun q => q.restaurant)),
        constraintHolds x (restWeekC filtered r) = true) ∧
      (∀ d < 7, ∀ r ∈ uniqueFirst (filtered.map (fun q => q.restaurant)),
        constraintHolds x (restDayC filtered d r) = true) ∧
      (∀ d < 7, constraintHolds x (noLegumesC filtered d) = true) ∧
      (∀ d < 7, constraintHolds x (noGrainsC filtered d) = true) := by
  simp only [feasible, buildModel, oneMealCs, uniqueMealCs, restWeekCs, restDayCs,
    noLegumesCs, noGrainsCs, List.mem_cons, List.mem_append, List.mem_flatMap,
    List.mem_map, List.mem_range]
  constructor
  · intro h
    refine ⟨h _ (Or.inl rfl), ?_, ?_, ?_, ?_, ?_, ?_⟩
    · intro d hd m hm
      exact h _ (Or.inr (Or.inl (Or.inl (Or.inl (Or.inl (Or.inl ⟨d, hd, ⟨m, hm, rfl⟩⟩))))))
    · intro i hi
      exact h _ (Or.inr (Or.inl (Or.inl (Or.inl (Or.inl (Or.inr ⟨i, hi, rfl⟩))))))
    · intro r hr
      exact h _ (Or.inr (Or.inl (Or.inl (Or.inl (Or.inr ⟨r, hr, rfl⟩)))))
    · intro d hd r hr
      exact h _ (Or.inr (Or.inl (Or.inl (Or.inr ⟨d, hd, ⟨r, hr, rfl⟩⟩))))
    · intro d hd
      exact h _ (Or.inr (Or.inl (Or.inr ⟨d, hd, rfl⟩)))
    · intro d hd
      exact h _ (Or.inr (Or.inr ⟨d, hd, rfl⟩))
  · rintro ⟨hb, hone, huniq, hrw, hrd, hleg, hgr⟩ c hc
    rcases hc with rfl | hc
    · exact hb
    rcases hc with ((((hc | hc) | hc) | hc) | hc) | hc
    · obtain ⟨d, hd, m, hm, rfl⟩ := hc
      exact hone d hd m hm
    · obtain ⟨i, hi, rfl⟩ := hc
      exact huniq i hi
    · obtain ⟨r, hr, rfl⟩ := hc
      exact hrw r hr
    · obtain ⟨d, hd, r, hr, rfl⟩ := hc
      exact hrd d hd r hr
    · obtain ⟨d, hd, rfl⟩ := hc
      exact hleg d hd
    · obtain ⟨d, hd, rfl⟩ := hc
      exact hgr d hd

/-! ### Feasibility accessors -/

theorem mem_slots (m : Slot) : m ∈ slots := by cases m <;> simp [slots]

theorem feas_budget {filtered : List MealRecord} {prefs : Preferences} {x : Asg}
    (h : feasible (buildModel filtered prefs) x) :
    evalTerms x (objTerms filtered) ≤ prefs.budget :=
  (constraintHolds_budgetC x filtered prefs).mp ((feasible_iff filtered prefs x).mp h).1

theorem feas_oneMeal {filtered : List MealRecord} {prefs : Preferences} {x : Asg}
    (h : feasible (buildModel filtered prefs) x) :
    ∀ d < 7, ∀ m : Slot,
      ((List.range filtered.length).filter (fun i => x i d m)).length = 1 :=
  fun d hd m => (constraintHolds_oneMealC x filtered.length d m).mp
    (((feasible_iff filtered prefs x).mp h).2.1 d hd m (mem_slots m))

theorem feas_unique {filtered : List MealRecord} {prefs : Preferences} {x : Asg}
    (h : feasible (buildModel filtered prefs) x) :
    ∀ i < filtered.length, (slotPairs.filter (fun p => x i p.1 p.2)).length ≤ 1 :=
  fun i hi => (constraintHolds_uniqueMealC x i).mp
    (((feasible_iff filtered prefs x).mp h).2.2.1 i hi)

theorem feas_noLegumes {filtered : List MealRecord} {prefs : Preferences} {x : Asg}
    (h : feasible (buildModel filtered prefs) x) :
    ∀ d < 7, ∀ i < filtered.length,
      (rowAt filtered i).contains_legumes = 1 → x i d Slot.Dinner = false :=
  fun d hd => (constraintHolds_noLegumesC x filtered d).mp
    (((feasible_iff filtered prefs x).mp h).2.2.2.2.2.1 d hd)

theorem feas_noGrains {filtered : List MealRecord} {prefs : Preferences} {x : Asg}
    (h : feasible (buildModel filtered prefs) x) :
    ∀ d < 7, ∀ i < filtered.length,
      (rowAt filtered i).contains_grains = 1 → x i d Slot.Dinner = false :=
  fun d hd => (constraintHolds_noGrainsC x filtered d).mp
    (((feasible_iff filtered prefs x).mp h).2.2.2.2.2.2 d hd)

/-! ### Structure of the extracted solution -/

theorem mem_selectedTriples (n : ℕ) (x : Asg) (t : VarId) :
    t ∈ selectedTriples n x ↔ t.1 < n ∧ t.2.1 < 7 ∧ x t.1 t.2.1 t.2.2 = true := by
  simp only [selectedTriples, List.mem_flatMap, List.mem_map, List.mem_filter, List.mem_range]
  constructor
  · rintro ⟨d, hd, m, _, i, ⟨hi, hx⟩, rfl⟩
    exact ⟨hi, hd, hx⟩
  · rintro ⟨h1, h2, h3⟩
    exact ⟨t.2.1, h2, t.2.2, mem_slots _, t.1, ⟨h1, h3⟩, rfl⟩

theorem countP_const {α : Type} (l : List α) (b : Bool) :
    l.countP (fun _ => b) = if b then l.length else 0 := by
  cases b <;> simp

/-- Counting in the selected-triples list, block by block. -/
theorem countP_selectedTriples (n : ℕ) (x : Asg) (q : VarId → Bool) :
    (selectedTriples n x).countP q =
      ((List.range 7).map (fun d =>
        (slots.map (fun m =>
          ((List.range n).filter (fun i => x i d m)).countP (fun i => q (i, d, m)))).sum)).sum := by
  simp [selectedTriples, List.countP_flatMap, Function.comp_def, List.countP_map]

/-- Count of one index in a filtered index range. -/
theorem count_filter_range (x : Asg) (n d : ℕ) (m : Slot) (i₀ : ℕ) :
    ((List.range n).filter (fun i => x i d m)).count i₀ =
      if i₀ < n ∧ x i₀ d m = true then 1 else 0 := by
  by_cases h : i₀ < n ∧ x i₀ d m = true
  · rw [if_pos h]
    exact List.count_eq_one_of_mem ((List.nodup_range n).filter _)
      (by simp [List.mem_filter, List.mem_range, h.1, h.2])
  · rw [if_neg h]
    rw [List.count_eq_zero]
    simp only [List.mem_filter, List.mem_range]
    intro hc
    exact h ⟨hc.1, hc.2⟩

/-- Length of a filtered slot-pair list as a double sum. -/
theorem slotPairs_filter_length (p : ℕ × Slot → Bool) :
    (slotPairs.filter p).length =
      ((List.range 7).map (fun d =>
        (slots.map (fun m => if p (d, m) then 1 else 0)).sum)).sum := by
  rw [← List.countP_eq_length_filter]
  simp only [slotPairs, List.countP_flatMap, Function.comp_def, List.countP_map]
  apply congrArg List.sum
  apply List.map_congr_left
  intro d _
  by_cases h1 : p (d, Slot.Lunch) <;> by_cases h2 : p (d, Slot.Dinner) <;>
    simp [slots, List.countP_cons, h1, h2]

/-- Under SlotCoverage, the extracted plan has length 14. -/
theorem extractPlan_length {filtered : List MealRecord} {prefs : Preferences} {x : Asg}
    (h : feasible (buildModel filtered prefs) x) :
    (extractPlan filtered x).length = 14 := by
  have h1 := feas_oneMeal h
  simp only [extractPlan, List.length_map, selectedTriples, List.length_flatMap,
    Function.comp_def]
  have hinner : ∀ d ∈ List.range 7,
      (List.map (fun m =>
        (List.filter (fun i => x i d m) (List.range filtered.length)).length) slots).sum
        = 2 := by
    intro d hd
    rw [List.mem_range] at hd
    simp [slots, h1 d hd]
  rw [List.map_congr_left hinner]
  simp


theorem extractPlan_countP {filtered : List MealRecord} {prefs : Preferences} {x : Asg}
    (h : feasible (buildModel filtered prefs) x) :
    ∀ d < 7, ∀ m : Slot,
      (extractPlan filtered x).countP
        (fun e => decide (e.day = dayNames.getD d "" ∧ e.meal_type = m)) = 1 := by
  intro d hd m
  have h1 := feas_oneMeal h
  simp only [extractPlan, List.countP_map]
  rw [countP_selectedTriples]
  have hblock : ∀ d' ∈ List.range 7,
      (List.map
        (fun m' =>
          List.countP
            (fun i =>
              ((fun e => decide (e.day = dayNames.getD d "" ∧ e.meal_type = m)) ∘ planEntryOf filtered)
                (i, d', m'))
            (List.filter (fun i => x i d' m') (List.range filtered.length)))
        slots).sum = if dayNames.getD d' "" = dayNames.getD d "" then 1 else 0 := by
    intro d' hd'
    rw [List.mem_range] at hd'
    simp only [Function.comp_def, planEntryOf]
    cases m <;>
      by_cases hde : dayNames.getD d' "" = dayNames.getD d "" <;>
        simp [slots, countP_const, hde, h1 d' hd']
  rw [List.map_congr_left hblock]
  interval_cases d <;> decide

/-- Each meal index is chosen at most once when the no-repeat constraints
hold. -/
theorem chosen_count_le_one {filtered : List MealRecord} {prefs : Preferences} {x : Asg}
    (h : feasible (buildModel filtered prefs) x) (i₀ : ℕ) :
    ((selectedTriples filtered.length x).map (fun t => t.1)).count i₀ ≤ 1 := by
  rw [List.count_eq_countP, List.countP_map, countP_selectedTriples]
  have hblock : ∀ d' ∈ List.range 7,
      (List.map
        (fun m' =>
          List.countP
            (fun i => ((fun y => y == i₀) ∘ fun t => t.1) (i, d', m'))
            (List.filter (fun i => x i d' m') (List.range filtered.length)))
        slots).sum =
      (List.map (fun m' => if i₀ < filtered.length ∧ x i₀ d' m' = true then 1 else 0)
        slots).sum := by
    intro d' _
    apply congrArg List.sum
    apply List.map_congr_left
    intro m' _
    simp only [Function.comp_def]
    rw [← List.count_eq_countP, count_filter_range]
  rw [List.map_congr_left hblock]
  by_cases hi : i₀ < filtered.length
  · have hu := feas_unique h i₀ hi
    rw [slotPairs_filter_length] at hu
    simpa [hi] using hu
  · simp [hi]

theorem chosen_nodup {filtered : List MealRecord} {prefs : Preferences} {x : Asg}
    (h : feasible (buildModel filtered prefs) x) :
    ((selectedTriples filtered.length x).map (fun t => t.1)).Nodup :=
  List.nodup_iff_count_le_one.mpr (fun a => chosen_count_le_one h a)

/-- The objective value is the total price of the selected meals. -/
theorem objTerms_eval_eq (filtered : List MealRecord) (x : Asg) :
    evalTerms x (objTerms filtered) =
      ((selectedTriples filtered.length x).map (fun t => (rowAt filtered t.1).price)).sum := by
  rw [objTerms, evalTerms_flatMap]
  have hL : ∀ i ∈ List.range filtered.length,
      evalTerms x ((List.range 7).flatMap
        (fun d => slots.map (fun m => ((rowAt filtered i).price, (i, d, m))))) =
      ((List.range 7).map (fun d =>
        (slots.map (fun m => if x i d m then (rowAt filtered i).price else 0)).sum)).sum := by
    intro i _
    rw [evalTerms_flatMap]
    apply congrArg List.sum
    apply List.map_congr_left
    intro d _
    rw [evalTerms_constMap]
  rw [List.map_congr_left hL]
  rw [selectedTriples, sum_map_flatMap]
  have hR : ∀ d ∈ List.range 7,
      (((slots.flatMap (fun m =>
        ((List.range filtered.length).filter (fun i => x i d m)).map
          (fun i => (i, d, m)))).map (fun t => (rowAt filtered t.1).price)).sum) =
      (slots.map (fun m =>
        ((List.range filtered.length).map
          (fun i => if x i d m then (rowAt filtered i).price else 0)).sum)).sum := by
    intro d _
    rw [sum_map_flatMap]
    apply congrArg List.sum
    apply List.map_congr_left
    intro m _
    rw [List.map_map]
    rw [show ((fun t => (rowAt filtered t.1).price) ∘ fun i => ((i, d, m) : VarId)) =
      (fun i => (rowAt filtered i).price) from rfl]
    rw [sum_map_filter]
  rw [List.map_congr_left hR]
  rw [sum_map_comm (List.range filtered.length) (List.range 7)]
  apply congrArg List.sum
  apply List.map_congr_left
  intro d _
  rw [sum_map_comm (List.range filtered.length) slots]


/-- Under SlotCoverage the day column of the plan is each day name twice,
in day order. -/
theorem plan_days {filtered : List MealRecord} {prefs : Preferences} {x : Asg}
    (h : feasible (buildModel filtered prefs) x) :
    (extractPlan filtered x).map (fun e => e.day) =
      (List.range 7).flatMap (fun d => [dayNames.getD d "", dayNames.getD d ""]) := by
  have h1 := feas_oneMeal h
  simp only [extractPlan, List.map_map, selectedTriples, List.map_flatMap]
  apply List.flatMap_congr
  intro d hd
  rw [List.mem_range] at hd
  obtain ⟨aL, hL⟩ := List.length_eq_one.mp (h1 d hd Slot.Lunch)
  obtain ⟨aD, hD⟩ := List.length_eq_one.mp (h1 d hd Slot.Dinner)
  simp [slots, hL, hD, Function.comp_def, planEntryOf]

/-- Under SlotCoverage the groupby keys are exactly the seven day names. -/
theorem uniqueDays_extractPlan {filtered : List MealRecord} {prefs : Preferences} {x : Asg}
    (h : feasible (buildModel filtered prefs) x) :
    uniqueDays (extractPlan filtered x) = dayNames := by
  rw [uniqueDays, plan_days h]
  decide


/-! ### Model independence from nutrition data -/

theorem rowAt_nmap_price (l : List MealRecord) (c p : MealRecord → ℚ) (i : ℕ) :
    (rowAt (l.map (fun r => { r with calories_kcal := c r, protein_g := p r })) i).price =
      (rowAt l i).price := by
  unfold rowAt
  rw [List.getD_eq_getElem?_getD, List.getD_eq_getElem?_getD, List.getElem?_map]
  cases l[i]? <;> rfl

theorem rowAt_nmap_restaurant (l : List MealRecord) (c p : MealRecord → ℚ) (i : ℕ) :
    (rowAt (l.map (fun r => { r with calories_kcal := c r, protein_g := p r })) i).restaurant =
      (rowAt l i).restaurant := by
  unfold rowAt
  rw [List.getD_eq_getElem?_getD, List.getD_eq_getElem?_getD, List.getElem?_map]
  cases l[i]? <;> rfl

theorem rowAt_nmap_legumes (l : List MealRecord) (c p : MealRecord → ℚ) (i : ℕ) :
    (rowAt (l.map (fun r => { r with calories_kcal := c r, protein_g := p r })) i).contains_legumes =
      (rowAt l i).contains_legumes := by
  unfold rowAt
  rw [List.getD_eq_getElem?_getD, List.getD_eq_getElem?_getD, List.getElem?_map]
  cases l[i]? <;> rfl

theorem rowAt_nmap_grains (l : List MealRecord) (c p : MealRecord → ℚ) (i : ℕ) :
    (rowAt (l.map (fun r => { r with calories_kcal := c r, protein_g := p r })) i).contains_grains =
      (rowAt l i).contains_grains := by
  unfold rowAt
  rw [List.getD_eq_getElem?_getD, List.getD_eq_getElem?_getD, List.getElem?_map]
  cases l[i]? <;> rfl


/-- The sample assignment is feasible for the model built from the sample
catalog and preferences. -/
theorem wFeasible : feasible (buildModel wMeals wPrefs) wAsg := by
  rw [feasible_iff]
  refine ⟨?_, ?_, ?_, ?_, ?_, ?_, ?_⟩
  · rw [constraintHolds_budgetC, objTerms_eval_eq]
    have hsel : (selectedTriples wMeals.length wAsg).map
        (fun t => (rowAt wMeals t.1).price) = List.replicate 14 (5 : ℚ) := by rfl
    rw [hsel, List.sum_replicate, nsmul_eq_mul]
    norm_num [wPrefs]
  · intro d hd m hm
    rw [constraintHolds_oneMealC]
    exact (by decide : ∀ d < 7, ∀ m ∈ slots,
      ((List.range wMeals.length).filter (fun i => wAsg i d m)).length = 1) d hd m hm
  · intro i hi
    rw [constraintHolds_uniqueMealC]
    exact (by decide : ∀ i < wMeals.length,
      (slotPairs.filter (fun p => wAsg i p.1 p.2)).length ≤ 1) i hi
  · intro r hr
    rw [constraintHolds_restWeekC]
    exact (by decide : ∀ r ∈ uniqueFirst (wMeals.map (fun q => q.restaurant)),
      (((List.range wMeals.length).flatMap (fun i =>
          (List.range 7).flatMap (fun d => slots.map (fun m => (i, d, m))))).filter
        (fun v => decide ((rowAt wMeals v.1).restaurant = r) &&
          wAsg v.1 v.2.1 v.2.2)).length ≤ 5) r hr
  · intro d hd r hr
    rw [constraintHolds_restDayC]
    exact (by decide : ∀ d < 7, ∀ r ∈ uniqueFirst (wMeals.map (fun q => q.restaurant)),
      (((List.range wMeals.length).flatMap (fun i =>
          slots.map (fun m => (i, d, m)))).filter
        (fun v => decide ((rowAt wMeals v.1).restaurant = r) &&
          wAsg v.1 v.2.1 v.2.2)).length ≤ 1) d hd r hr
  · intro d hd
    rw [constraintHolds_noLegumesC]
    exact (by decide : ∀ d < 7, ∀ i < wMeals.length,
      (rowAt wMeals i).contains_legumes = 1 → wAsg i d Slot.Dinner = false) d hd
  · intro d hd
    rw [constraintHolds_noGrainsC]
    exact (by decide : ∀ d < 7, ∀ i < wMeals.length,
      (rowAt wMeals i).contains_grains = 1 → wAsg i d Slot.Dinner = false) d hd



theorem objTerms_nmap (l : List MealRecord) (c p : MealRecord → ℚ) :
    objTerms (l.map (fun r => { r with calories_kcal := c r, protein_g := p r })) =
      objTerms l := by
  simp [objTerms, List.length_map, rowAt_nmap_price]

theorem restList_nmap (l : List MealRecord) (c p : MealRecord → ℚ) :
    (l.map (fun r => { r with calories_kcal := c r, protein_g := p r })).map
        (fun q => q.restaurant) =
      l.map (fun q => q.restaurant) := by
  simp [List.map_map, Function.comp_def]

theorem restWeekC_nmap (l : List MealRecord) (c p : MealRecord → ℚ) :
    restWeekC (l.map (fun r => { r with calories_kcal := c r, protein_g := p r })) =
      restWeekC l := by
  funext r
  simp [restWeekC, List.length_map, rowAt_nmap_restaurant]

theorem restDayC_nmap (l : List MealRecord) (c p : MealRecord → ℚ) :
    restDayC (l.map (fun r => { r with calories_kcal := c r, protein_g := p r })) =
      restDayC l := by
  funext d r
  simp [restDayC, List.length_map, rowAt_nmap_restaurant]

theorem noLegumesC_nmap (l : List MealRecord) (c p : MealRecord → ℚ) :
    noLegumesC (l.map (fun r => { r with calories_kcal := c r, protein_g := p r })) =
      noLegumesC l := by
  funext d
  simp [noLegumesC, List.length_map, rowAt_nmap_legumes]

theorem noGrainsC_nmap (l : List MealRecord) (c p : MealRecord → ℚ) :
    noGrainsC (l.map (fun r => { r with calories_kcal := c r, protein_g := p r })) =
      noGrainsC l := by
  funext d
  simp [noGrainsC, List.length_map, rowAt_nmap_grains]

/-! ## Claim theorems -/

/-- C1: for every catalog and preference set whose eligible set has fewer
than 14 meals, `run_optimization` fails with the insufficient-inventory
error carrying the eligible count — and it does so for every solver
oracle, so the failure precedes any use of the built model. -/
theorem insufficient_inventory_fast_fail (df : List MealRecord) (prefs : Preferences)
    (solver : LpModel → Option Asg)
    (h : (applyFilters prefs df).length < 14) :
    run_optimization df prefs solver =
      Except.error (OptError.insufficientInventory (applyFilters prefs df).length) := by
  unfold run_optimization
  simp [h]

/-- Witness for C1: the empty catalog filters to 0 eligible meals and the
pipeline reports exactly that count, whatever the solver would say. -/
theorem insufficient_inventory_fast_fail_witness :
    (applyFilters wPrefs []).length < 14 ∧
    run_optimization [] wPrefs (fun _ => none) =
      Except.error (OptError.insufficientInventory (applyFilters wPrefs []).length) :=
  ⟨by decide, insufficient_inventory_fast_fail [] wPrefs (fun _ => none) (by decide)⟩

/-- C2: the eligible-meal set is exactly the catalog rows satisfying the
conjunction of the active toggles' predicates; unset toggles remove no
row (`rowEligible` is the spec-side conjunctive predicate). -/
theorem eligible_set_is_conjunctive_filter (prefs : Preferences) (df : List MealRecord) :
    applyFilters prefs df = df.filter (rowEligible prefs) :=
  applyFilters_eq_filter prefs df

/-- C3: applying the toggle predicates in any order yields the same
eligible set: every permutation of the toggle-predicate list filters to
the source's result. -/
theorem filter_order_irrelevant (prefs : Preferences) (df : List MealRecord)
    (ps : List (MealRecord → Bool)) (h : ps.Perm (togglePreds prefs)) :
    applyPreds ps df = applyFilters prefs df :=
  (applyPreds_perm h df).trans (applyPreds_togglePreds prefs df)

/-- Witness for C3: the reversed toggle list is a permutation and filters
a concrete catalog to the same rows. -/
theorem filter_order_irrelevant_witness :
    ((togglePreds wPrefs).reverse).Perm (togglePreds wPrefs) ∧
    applyPreds ((togglePreds wPrefs).reverse) wMeals = applyFilters wPrefs wMeals :=
  ⟨List.reverse_perm _,
    filter_order_irrelevant wPrefs wMeals _ (List.reverse_perm _)⟩

/-- C4: every assignment satisfying the built model's constraints yields
a plan of exactly 14 entries, with exactly one entry per (day, slot)
pair over the 7 day names and both slots. -/
theorem slot_coverage_of_feasible (filtered : List MealRecord) (prefs : Preferences)
    (x : Asg) (h : feasible (buildModel filtered prefs) x) :
    (extractPlan filtered x).length = 14 ∧
    ∀ d < 7, ∀ m : Slot,
      (extractPlan filtered x).countP
        (fun e => decide (e.day = dayNames.getD d "" ∧ e.meal_type = m)) = 1 :=
  ⟨extractPlan_length h, extractPlan_countP h⟩

/-- Witness for C4. -/
theorem slot_coverage_of_feasible_witness :
    feasible (buildModel wMeals wPrefs) wAsg ∧
    ((extractPlan wMeals wAsg).length = 14 ∧
     ∀ d < 7, ∀ m : Slot,
       (extractPlan wMeals wAsg).countP
         (fun e => decide (e.day = dayNames.getD d "" ∧ e.meal_type = m)) = 1) :=
  ⟨wFeasible, slot_coverage_of_feasible wMeals wPrefs wAsg wFeasible⟩

/-- C5: under the built model's constraints, each meal's assignment
variables sum to at most 1 over the 14 slots, so the selected meal
indices — and hence the plan's dishes — are pairwise distinct. -/
theorem no_repeat_of_feasible (filtered : List MealRecord) (prefs : Preferences)
    (x : Asg) (h : feasible (buildModel filtered prefs) x) :
    (∀ i < filtered.length, (slotPairs.filter (fun p => x i p.1 p.2)).length ≤ 1) ∧
    ((selectedTriples filtered.length x).map (fun t => t.1)).Nodup :=
  ⟨feas_unique h, chosen_nodup h⟩

/-- Witness for C5. -/
theorem no_repeat_of_feasible_witness :
    feasible (buildModel wMeals wPrefs) wAsg ∧
    ((∀ i < wMeals.length, (slotPairs.filter (fun p => wAsg i p.1 p.2)).length ≤ 1) ∧
     ((selectedTriples wMeals.length wAsg).map (fun t => t.1)).Nodup) :=
  ⟨wFeasible, no_repeat_of_feasible wMeals wPrefs wAsg wFeasible⟩

/-- C6: under the built model's constraints, no selected Dinner variable
references a meal flagged `contains_legumes = 1` or `contains_grains = 1`
(the plan's Dinner entries are built exactly from these variables). -/
theorem no_legumes_grains_at_dinner (filtered : List MealRecord) (prefs : Preferences)
    (x : Asg) (h : feasible (buildModel filtered prefs) x) :
    ∀ t ∈ selectedTriples filtered.length x, t.2.2 = Slot.Dinner →
      (rowAt filtered t.1).contains_legumes ≠ 1 ∧
      (rowAt filtered t.1).contains_grains ≠ 1 := by
  intro t ht hdin
  rw [mem_selectedTriples] at ht
  obtain ⟨h1, h2, h3⟩ := ht
  rw [hdin] at h3
  constructor
  · intro hleg
    have hfalse := feas_noLegumes h t.2.1 h2 t.1 h1 hleg
    simp [hfalse] at h3
  · intro hg
    have hfalse := feas_noGrains h t.2.1 h2 t.1 h1 hg
    simp [hfalse] at h3

/-- Witness for C6. -/
theorem no_legumes_grains_at_dinner_witness :
    feasible (buildModel wMeals wPrefs) wAsg ∧
    (∀ t ∈ selectedTriples wMeals.length wAsg, t.2.2 = Slot.Dinner →
      (rowAt wMeals t.1).contains_legumes ≠ 1 ∧
      (rowAt wMeals t.1).contains_grains ≠ 1) :=
  ⟨wFeasible, no_legumes_grains_at_dinner wMeals wPrefs wAsg wFeasible⟩

/-- C7: under the built model's constraints — which include the budget
constraint — the reported `total_cost`, recomputed as the sum of the
chosen entries' prices, is at most the weekly budget. -/
theorem budget_respected (filtered : List MealRecord) (prefs : Preferences)
    (x : Asg) (h : feasible (buildModel filtered prefs) x) :
    (extractResult filtered prefs x).total_cost ≤ prefs.budget ∧
    (extractResult filtered prefs x).total_cost =
      ((extractPlan filtered x).map (fun e => e.price)).sum := by
  refine ⟨?_, rfl⟩
  have hb := feas_budget h
  rw [objTerms_eval_eq] at hb
  show ((extractPlan filtered x).map (fun e => e.price)).sum ≤ prefs.budget
  rw [extractPlan, List.map_map]
  exact hb

/-- Witness for C7. -/
theorem budget_respected_witness :
    feasible (buildModel wMeals wPrefs) wAsg ∧
    ((extractResult wMeals wPrefs wAsg).total_cost ≤ wPrefs.budget ∧
     (extractResult wMeals wPrefs wAsg).total_cost =
       ((extractPlan wMeals wAsg).map (fun e => e.price)).sum) :=
  ⟨wFeasible, budget_respected wMeals wPrefs wAsg wFeasible⟩

/-- C9: the extractor's aggregates: `total_cost` is the sum of entry
prices, `budget_used` is `total_cost / budget × 100`, and the average
daily calories/protein are the mean over the 7 day names of that day's
summed values (a per-day, not per-meal, average). -/
theorem extractor_metrics_of_feasible (filtered : List MealRecord) (prefs : Preferences)
    (x : Asg) (h : feasible (buildModel filtered prefs) x) :
    (extractResult filtered prefs x).total_cost =
      ((extractPlan filtered x).map (fun e => e.price)).sum ∧
    (extractResult filtered prefs x).budget_used =
      (extractResult filtered prefs x).total_cost / prefs.budget * 100 ∧
    (extractResult filtered prefs x).avg_calories =
      ((dayNames.map (groupSum (extractPlan filtered x) (fun e => e.calories))).sum) / 7 ∧
    (extractResult filtered prefs x).avg_protein =
      ((dayNames.map (groupSum (extractPlan filtered x) (fun e => e.protein))).sum) / 7 := by
  refine ⟨rfl, rfl, ?_, ?_⟩
  · show avgDaily (extractPlan filtered x) (fun e => e.calories) = _
    rw [avgDaily, uniqueDays_extractPlan h]
    norm_num [dayNames]
  · show avgDaily (extractPlan filtered x) (fun e => e.protein) = _
    rw [avgDaily, uniqueDays_extractPlan h]
    norm_num [dayNames]

/-- Witness for C9. -/
theorem extractor_metrics_of_feasible_witness :
    feasible (buildModel wMeals wPrefs) wAsg ∧
    ((extractResult wMeals wPrefs wAsg).total_cost =
      ((extractPlan wMeals wAsg).map (fun e => e.price)).sum ∧
    (extractResult wMeals wPrefs wAsg).budget_used =
      (extractResult wMeals wPrefs wAsg).total_cost / wPrefs.budget * 100 ∧
    (extractResult wMeals wPrefs wAsg).avg_calories =
      ((dayNames.map (groupSum (extractPlan wMeals wAsg) (fun e => e.calories))).sum) / 7 ∧
    (extractResult wMeals wPrefs wAsg).avg_protein =
      ((dayNames.map (groupSum (extractPlan wMeals wAsg) (fun e => e.protein))).sum) / 7) :=
  ⟨wFeasible, extractor_metrics_of_feasible wMeals wPrefs wAsg wFeasible⟩

/-- C8: the built model — variables, objective and every constraint — is
unchanged by arbitrary modification of the calorie and protein columns
and of the gender selector; in particular the nutrition targets
(`nutritionTargets`) computed from the gender never enter the model. -/
theorem model_ignores_nutrition (filtered : List MealRecord) (prefs : Preferences)
    (c p : MealRecord → ℚ) (g : Gender) :
    buildModel (filtered.map (fun r => { r with calories_kcal := c r, protein_g := p r }))
        { prefs with gender := g } =
      buildModel filtered prefs := by
  simp [buildModel, budgetC, oneMealCs, uniqueMealCs, restWeekCs, restDayCs,
    noLegumesCs, noGrainsCs, objTerms_nmap, restList_nmap, restWeekC_nmap,
    restDayC_nmap, noLegumesC_nmap, noGrainsC_nmap, List.length_map,
    Function.comp_def]

/-- C10: the statements of the filtering section never rebind or mutate
the caller's frame: after running them the `df` variable still holds the
input rows, while `filtered` holds the eligible set. -/
theorem input_catalog_unchanged (prefs : Preferences) (df : List MealRecord) :
    (runFilterPhase prefs df).df = df ∧
    (runFilterPhase prefs df).filtered = applyFilters prefs df :=
  ⟨rfl, rfl⟩

end SmartDining
